import Mathlib

/-!
Shallow embedding of `gfxmath.hh` (namespace `gfx`): fixed-dimension
vectors `gfx::vector<scalar_type, DIMENSION>` and matrices
`gfx::matrix<scalar_type, HEIGHT, WIDTH>`.

A vector is embedded as a function `Fin n → α`, a matrix as
`Fin h → Fin w → α` (its rows are vectors of width `w`, as in the source).
C++ `int` indices that flow through the asserted `operator[]` are embedded
as `ℤ` together with `Option`-valued checked access: `none` models an
`assert` failure aborting the program.  Loops are embedded as folds over
the exact index ranges the source iterates.
-/

namespace gfx

/-- The element type of a `gfx::vector<scalar_type, DIMENSION>`:
`DIMENSION` scalars indexed `0 .. DIMENSION-1`. -/
abbrev vector (α : Type) (n : ℕ) : Type := Fin n → α

/-- A `gfx::matrix<scalar_type, HEIGHT, WIDTH>`: `HEIGHT` rows, each a
vector of `WIDTH` scalars. -/
abbrev matrix (α : Type) (h w : ℕ) : Type := Fin h → Fin w → α

/-- The guard `vector::is_index(i)`: `(i >= 0) && (i < DIMENSION)`. -/
abbrev vector.is_index (n : ℕ) (i : ℤ) : Prop := 0 ≤ i ∧ i < (n : ℤ)

/-- The guard `matrix::is_row(r)`: `(r >= 0) && (r < HEIGHT)`. -/
abbrev matrix.is_row (h : ℕ) (r : ℤ) : Prop := 0 ≤ r ∧ r < (h : ℤ)

/-- The guard `matrix::is_column(c)`: `(c >= 0) && (c < WIDTH)`. -/
abbrev matrix.is_column (w : ℕ) (c : ℤ) : Prop := 0 ≤ c ∧ c < (w : ℤ)

/-- A read `v[i]` through `vector::operator[]`, which asserts
`is_index(i)`; `none` models the assertion firing. -/
def vector.get {α : Type} {n : ℕ} (v : vector α n) (i : ℤ) : Option α :=
  if hi : vector.is_index n i then some (v ⟨i.toNat, by omega⟩) else none

/-- A write `v[i] = x` through `vector::operator[]`, which asserts
`is_index(i)`; `none` models the assertion firing. -/
def vector.set {α : Type} {n : ℕ} (v : vector α n) (i : ℤ) (x : α) :
    Option (vector α n) :=
  if hi : vector.is_index n i then
    some (Function.update v ⟨i.toNat, by omega⟩ x)
  else none

/-- A read `M[r][c]` through `matrix::operator[]` (which asserts
`is_row(r)`) followed by the row's `vector::operator[]`. -/
def matrix.get {α : Type} {h w : ℕ} (M : matrix α h w) (r c : ℤ) : Option α :=
  if hr : matrix.is_row h r then vector.get (M ⟨r.toNat, by omega⟩) c
  else none

/-- A write `M[r][c] = x` through `matrix::operator[]` (which asserts
`is_row(r)`) followed by the row's `vector::operator[]`. -/
def matrix.set {α : Type} {h w : ℕ} (M : matrix α h w) (r c : ℤ) (x : α) :
    Option (matrix α h w) :=
  if hr : matrix.is_row h r then
    (vector.set (M ⟨r.toNat, by omega⟩) c x).map
      (fun row => Function.update M ⟨r.toNat, by omega⟩ row)
  else none

/-- The in-range write `M[r][c] = x` for statically valid indices. -/
def matrix.set_entry {α : Type} {h w : ℕ} (M : matrix α h w)
    (r : Fin h) (c : Fin w) (x : α) : matrix α h w :=
  Function.update M r (Function.update (M r) c x)

/-- The `int` values visited by a loop `for (v = 0; v <= bound; v++)`:
`0, 1, ..., bound`, none when `bound < 0`. -/
def upto (bound : ℤ) : List ℤ :=
  (List.range (bound + 1).toNat).map (fun k => (k : ℤ))

section RingOps

variable {α : Type} [CommRing α] {n : ℕ}

/-- `vector::operator+`: `sum[i] = (*this)[i] + rhs[i]` for every index,
written into a copy of `*this`. -/
def vector.add (u v : vector α n) : vector α n := fun i => u i + v i

/-- `vector::operator-` (unary): `neg[i] = 0 - (*this)[i]`. -/
def vector.neg (u : vector α n) : vector α n := fun i => 0 - u i

/-- `vector::operator*(vector)`, the dot product: the loop
`dot += (*this)[i] * rhs[i]` starting from `dot = 0`. -/
def vector.dot (u v : vector α n) : α :=
  (List.finRange n).foldl (fun dot i => dot + u i * v i) 0

/-- `vector::magnitude_squared`: the loop
`magsq += (*this)[i] * (*this)[i]` starting from `magsq = 0`. -/
def vector.magnitude_squared (u : vector α n) : α :=
  (List.finRange n).foldl (fun magsq i => magsq + u i * u i) 0

/-- `vector::cross`: starting from `crossed = *this`, the three
statements
`crossed[0] = (*this)[1]*rhs[2] - (*this)[2]*rhs[1]`,
`crossed[1] = 0 - ((*this)[0]*rhs[2] - (*this)[2]*rhs[0])`,
`crossed[2] = (*this)[0]*rhs[1] - (*this)[1]*rhs[0]`,
each element access going through the asserted `operator[]` (the source
has no `static_assert` on the dimension). -/
def vector.cross (u v : vector α n) : Option (vector α n) := do
  let crossed := u
  let a1 ← vector.get u 1
  let b2 ← vector.get v 2
  let a2 ← vector.get u 2
  let b1 ← vector.get v 1
  let crossed ← vector.set crossed 0 (a1 * b2 - a2 * b1)
  let a0 ← vector.get u 0
  let b0 ← vector.get v 0
  let crossed ← vector.set crossed 1 (0 - (a0 * b2 - a2 * b0))
  let crossed ← vector.set crossed 2 (a0 * b1 - a1 * b0)
  pure crossed

/-- The `WIDTH == 2` branch of `matrix::determinant`:
`det = 0; det += (*this)[0][0]*(*this)[1][1] - (*this)[1][0]*(*this)[0][1]`. -/
def matrix.det2 (M : matrix α 2 2) : α :=
  0 + (M 0 0 * M 1 1 - M 1 0 * M 0 1)

/-- The `WIDTH == 3` branch of `matrix::determinant`: `det = 0` followed
by the three `det +=` and three `det -=` statements of the cofactor
expansion, in source order. -/
def matrix.det3 (M : matrix α 3 3) : α :=
  0 + M 0 0 * M 1 1 * M 2 2
    + M 0 1 * M 1 2 * M 2 0
    + M 0 2 * M 1 0 * M 2 1
    - M 0 2 * M 1 1 * M 2 0
    - M 0 1 * M 1 0 * M 2 2
    - M 0 0 * M 1 2 * M 2 1

end RingOps

section FieldOps

variable {α : Type} [Field α]

/-- The `HEIGHT == 2` branch of `matrix::solve`:
`det = determinant(); cramer = *this; cramer[0][0] = b[0];
cramer[1][0] = b[1]; cramsol[0] = cramer.determinant()/det;` then the
same with column 1, `cramsol` starting as a default (zero) vector. -/
def matrix.solve2 (M : matrix α 2 2) (b : vector α 2) : vector α 2 :=
  let det := matrix.det2 M
  let cramsol : vector α 2 := fun _ => 0
  let cramer := M
  let cramer := matrix.set_entry cramer 0 0 (b 0)
  let cramer := matrix.set_entry cramer 1 0 (b 1)
  let cramsol := Function.update cramsol 0 (matrix.det2 cramer / det)
  let cramer := M
  let cramer := matrix.set_entry cramer 0 1 (b 0)
  let cramer := matrix.set_entry cramer 1 1 (b 1)
  let cramsol := Function.update cramsol 1 (matrix.det2 cramer / det)
  cramsol

/-- The `HEIGHT == 3` branch of `matrix::solve`: `det = determinant();
cramer = *this;` then for `i = 0, 1, 2`: the inner loop
`cramer[j][i] = b[j]` for `j = 0, 1, 2`, then
`cramsol[i] = cramer.determinant()/det`, then the reset `cramer = *this`.
The fold state is the pair `(cramer, cramsol)`. -/
def matrix.solve3 (M : matrix α 3 3) (b : vector α 3) : vector α 3 :=
  let det := matrix.det3 M
  let final :=
    (List.finRange 3).foldl
      (fun s i =>
        let cramer :=
          (List.finRange 3).foldl (fun m j => matrix.set_entry m j i (b j)) s.1
        let cramsol := Function.update s.2 i (matrix.det3 cramer / det)
        (M, cramsol))
      (M, fun _ => 0)
  final.2

end FieldOps

/-- The matrix `A_i` of Cramer's rule: a copy of `M` with column `c`
(and only column `c`) replaced by `b`. -/
def matrix.replace_column {α : Type} {h w : ℕ} (M : matrix α h w)
    (c : Fin w) (b : vector α h) : matrix α h w :=
  fun r c' => if c' = c then b r else M r c'

section OrderOps

variable {α : Type} [LinearOrderedField α]

/-- `vector::almost_equal(rhs, delta)`: the loop returns `false` as soon
as `!(((*this)[i] <= rhs[i] + delta) && ((*this)[i] >= rhs[i] - delta))`
for some index, `true` after the loop. -/
def vector.almost_equal {n : ℕ} (u v : vector α n) (delta : α) : Bool :=
  (List.finRange n).all
    (fun i => decide (u i ≤ v i + delta) && decide (v i - delta ≤ u i))

/-- `matrix::almost_equal(rhs, delta)`: the loop returns `false` as soon
as `!_rows[i].almost_equal(rhs[i], delta)` for some row, `true` after. -/
def matrix.almost_equal {h w : ℕ} (M N : matrix α h w) (delta : α) : Bool :=
  (List.finRange h).all (fun i => vector.almost_equal (M i) (N i) delta)

end OrderOps

section StructuralOps

variable {α : Type} [Zero α]

/-- `matrix::submatrix<RESULT_HEIGHT, RESULT_WIDTH>(top, left)`:
a default (zero) result, then `sub[i][j] = (*this)[i+top][j+left]` over
the result's index grid, every access through the asserted
`operator[]`. -/
def matrix.submatrix {h w : ℕ} (rh rw' : ℕ) (M : matrix α h w)
    (top left : ℤ) : Option (matrix α rh rw') :=
  (List.finRange rh).foldlM
    (fun sub (i : Fin rh) =>
      (List.finRange rw').foldlM
        (fun sub (j : Fin rw') => do
          let x ← matrix.get M ((i : ℤ) + top) ((j : ℤ) + left)
          matrix.set sub (i : ℤ) (j : ℤ) x)
        sub)
    (fun _ _ => 0)

/-- `matrix::shrink<RESULT_HEIGHT, RESULT_WIDTH>()`: the three
`static_assert`s become the hypotheses `hrh`, `hrw`, `hs`; then a
default (zero) result with `sub[i][j] = (*this)[i][j]` over the
result's index grid (all indices statically in range). -/
def matrix.shrink {h w : ℕ} (rh rw' : ℕ) (hrh : rh ≤ h) (hrw : rw' ≤ w)
    (hs : rw' < w ∨ rh < h) (M : matrix α h w) : matrix α rh rw' :=
  (List.finRange rh).foldl
    (fun sub i =>
      (List.finRange rw').foldl
        (fun sub j =>
          matrix.set_entry sub i j
            (M ⟨i, by have := i.isLt; omega⟩ ⟨j, by have := j.isLt; omega⟩))
        sub)
    (fun _ _ => 0)

/-- `matrix::column_matrix(column)`: a default (zero) `HEIGHT x 1`
result; for each row `i`, the inner loop `for (j = 0; j <= column; j++)`
runs `col[i][j] = (*this)[i][j]` exactly when `j == column`, every
access through the asserted `operator[]`. -/
def matrix.column_matrix {h w : ℕ} (M : matrix α h w) (column : ℤ) :
    Option (matrix α h 1) :=
  (List.finRange h).foldlM
    (fun col (i : Fin h) =>
      (upto column).foldlM
        (fun col j =>
          if j = column then do
            let x ← matrix.get M (i : ℤ) j
            matrix.set col (i : ℤ) j x
          else pure col)
        col)
    (fun _ _ => 0)

/-- `matrix::column_vector(column)`: a default (zero) `HEIGHT` vector;
for each row `i`, the inner loop `for (j = 0; j <= column; j++)` runs
`col[i] = (*this)[i][j]` exactly when `j == column`. -/
def matrix.column_vector {h w : ℕ} (M : matrix α h w) (column : ℤ) :
    Option (vector α h) :=
  (List.finRange h).foldlM
    (fun col (i : Fin h) =>
      (upto column).foldlM
        (fun col j =>
          if j = column then do
            let x ← matrix.get M (i : ℤ) j
            vector.set col (i : ℤ) x
          else pure col)
        col)
    (fun _ => 0)

/-- `matrix::row_matrix(row)`: first `assert(is_row(row))`, then a
default (zero) `1 x WIDTH` result; the outer loop
`for (i = 0; i <= row; i++)` runs `rowmat[0][j] = (*this)[i][j]` over
every column `j` exactly when `i == row`. -/
def matrix.row_matrix {h w : ℕ} (M : matrix α h w) (row : ℤ) :
    Option (matrix α 1 w) :=
  if matrix.is_row h row then
    (upto row).foldlM
      (fun rowmat i =>
        (List.finRange w).foldlM
          (fun rowmat (j : Fin w) =>
            if i = row then do
              let x ← matrix.get M i (j : ℤ)
              matrix.set rowmat 0 (j : ℤ) x
            else pure rowmat)
          rowmat)
      (fun _ _ => 0)
  else none

/-- `matrix::row_vector(row)`: a default (zero) `WIDTH` vector (the
source has no `assert` here); the outer loop `for (i = 0; i <= row; i++)`
runs `rowvec[j] = (*this)[i][j]` over every column `j` exactly when
`i == row`. -/
def matrix.row_vector {h w : ℕ} (M : matrix α h w) (row : ℤ) :
    Option (vector α w) :=
  (upto row).foldlM
    (fun rowvec i =>
      (List.finRange w).foldlM
        (fun rowvec (j : Fin w) =>
          if i = row then do
            let x ← matrix.get M i (j : ℤ)
            vector.set rowvec (j : ℤ) x
          else pure rowvec)
        rowvec)
    (fun _ => 0)

end StructuralOps

/-- The `count_matrix` of the test-suite: `{1,2,3, 4,5,6, 7,8,9}`. -/
def count_matrix : matrix ℤ 3 3 := ![![1, 2, 3], ![4, 5, 6], ![7, 8, 9]]

/-- The spec's 2x2 determinant example `|4 6; 3 8|`. -/
def det2_example : matrix ℤ 2 2 := ![![4, 6], ![3, 8]]

/-- The spec's 3x3 determinant example `|6 1 1; 4 -2 5; 2 8 7|`. -/
def det3_example : matrix ℤ 3 3 := ![![6, 1, 1], ![4, -2, 5], ![2, 8, 7]]

/-- The coefficient matrix of the spec's solve example
`|1 2 3; 3 1 -3; -3 4 7|`. -/
def solve_example_A : matrix ℚ 3 3 := ![![1, 2, 3], ![3, 1, -3], ![-3, 4, 7]]

/-- The right-hand side of the spec's solve example, `(-5, 4, -7)`. -/
def solve_example_b : vector ℚ 3 := ![-5, 4, -7]

/-- A 2x2 system with nonzero determinant (test-suite example 1):
`{4, -3, 6, 5}`. -/
def solve2_example_A : matrix ℚ 2 2 := ![![4, -3], ![6, 5]]

/-- The right-hand side `(11, 7)` of the 2x2 test-suite example. -/
def solve2_example_b : vector ℚ 2 := ![11, 7]

theorem foldlM_eq_foldl {β γ : Type} (f : γ → β → Option γ) (g : γ → β → γ)
    (l : List β) (hf : ∀ c b, b ∈ l → f c b = some (g c b)) (init : γ) :
    l.foldlM f init = some (l.foldl g init) := by
  induction l generalizing init with
  | nil => rfl
  | cons b t ih =>
    rw [List.foldlM_cons, List.foldl_cons, hf init b (List.mem_cons_self b t)]
    exact ih (fun c b' hb' => hf c b' (List.mem_cons_of_mem b hb')) (g init b)

theorem foldl_update_mem {β : Type} {n : ℕ} (gv : Fin n → β) (l : List (Fin n))
    (init : Fin n → β) (j : Fin n) :
    l.foldl (fun v k => Function.update v k (gv k)) init j
      = if j ∈ l then gv j else init j := by
  induction l generalizing init with
  | nil => simp
  | cons k t ih =>
    simp only [List.foldl_cons, ih]
    by_cases hjt : j ∈ t
    · simp [hjt]
    · by_cases hjk : j = k <;> simp [hjt, hjk, Function.update_apply]

theorem foldl_set_row {α : Type} {h w : ℕ} (g : Fin h → Fin w → α) (i : Fin h)
    (l : List (Fin w)) (A : matrix α h w) :
    l.foldl (fun B j => matrix.set_entry B i j (g i j)) A
      = Function.update A i
          (l.foldl (fun v j => Function.update v j (g i j)) (A i)) := by
  induction l generalizing A with
  | nil => simp
  | cons j t ih =>
    rw [List.foldl_cons, List.foldl_cons, ih]
    simp [matrix.set_entry, Function.update_same, Function.update_idem]

theorem foldl_table {α : Type} {h w : ℕ} (g : Fin h → Fin w → α)
    (init : matrix α h w) :
    (List.finRange h).foldl
        (fun A i => (List.finRange w).foldl
          (fun B j => matrix.set_entry B i j (g i j)) A)
        init
      = fun i j => g i j := by
  have hstep : (fun (A : matrix α h w) (i : Fin h) =>
        (List.finRange w).foldl (fun B j => matrix.set_entry B i j (g i j)) A)
      = fun A i => Function.update A i (g i) := by
    funext A i
    rw [foldl_set_row]
    have hrow : (List.finRange w).foldl
        (fun v j => Function.update v j (g i j)) (A i) = g i := by
      funext j
      rw [foldl_update_mem]
      simp
    rw [hrow]
  rw [hstep]
  funext i j
  rw [foldl_update_mem]
  simp

theorem matrix.get_in_range {α : Type} {h w : ℕ} (M : matrix α h w) (r c : ℤ)
    (hr : matrix.is_row h r) (hc : vector.is_index w c) :
    matrix.get M r c = some (M ⟨r.toNat, by omega⟩ ⟨c.toNat, by omega⟩) := by
  unfold matrix.get vector.get
  rw [dif_pos hr, dif_pos hc]

theorem matrix.set_in_range {α : Type} {h w : ℕ} (M : matrix α h w) (r c : ℤ)
    (x : α) (hr : matrix.is_row h r) (hc : vector.is_index w c) :
    matrix.set M r c x
      = some (matrix.set_entry M ⟨r.toNat, by omega⟩ ⟨c.toNat, by omega⟩ x) := by
  unfold matrix.set vector.set matrix.set_entry
  rw [dif_pos hr, dif_pos hc]
  rfl

theorem matrix.submatrix_in_range {α : Type} [Zero α] {h w : ℕ} (rh rw' : ℕ)
    (M : matrix α h w) (top left : ℤ)
    (h1 : 0 ≤ top) (h2 : top + rh ≤ h) (h3 : 0 ≤ left) (h4 : left + rw' ≤ w) :
    matrix.submatrix rh rw' M top left
      = some (fun (i : Fin rh) (j : Fin rw') =>
          M ⟨((i : ℤ) + top).toNat, by have := i.isLt; omega⟩
            ⟨((j : ℤ) + left).toNat, by have := j.isLt; omega⟩) := by
  unfold matrix.submatrix
  rw [foldlM_eq_foldl _
    (fun sub (i : Fin rh) => (List.finRange rw').foldl
      (fun sub (j : Fin rw') => matrix.set_entry sub i j
        (M ⟨((i : ℤ) + top).toNat, by have := i.isLt; omega⟩
           ⟨((j : ℤ) + left).toNat, by have := j.isLt; omega⟩)) sub)
    _ ?_ _]
  · rw [foldl_table]
  · intro sub i _
    apply foldlM_eq_foldl
    intro sub' j _
    rw [matrix.get_in_range M _ _ (by have := i.isLt; constructor <;> omega)
      (by have := j.isLt; constructor <;> omega)]
    show matrix.set sub' (i : ℤ) (j : ℤ) _ = _
    rw [matrix.set_in_range sub' _ _ _ (by have := i.isLt; constructor <;> omega)
      (by have := j.isLt; constructor <;> omega)]
    congr 1

/-- C1: `solve(b)` implements Cramer's rule for 2x2 and 3x3 systems:
component `i` of the result is `det(A_i)/det(A)`, where `A_i` is a copy
of the original `A` with column `i` (and only column `i`) replaced by
`b`, each replacement starting from the original `A`; in particular the
3x3 matrix `{1,2,3, 3,1,-3, -3,4,7}` solving `b = (-5,4,-7)` yields
`x = (-1,1,-2)`. -/
theorem claim_c1_solve_is_cramers_rule {α : Type} [Field α]
    (M2 : matrix α 2 2) (b2 : vector α 2) (h2 : matrix.det2 M2 ≠ 0)
    (M3 : matrix α 3 3) (b3 : vector α 3) (h3 : matrix.det3 M3 ≠ 0) :
    (∀ i, matrix.solve2 M2 b2 i
        = matrix.det2 (matrix.replace_column M2 i b2) / matrix.det2 M2) ∧
    (∀ i, matrix.solve3 M3 b3 i
        = matrix.det3 (matrix.replace_column M3 i b3) / matrix.det3 M3) ∧
    matrix.solve3 solve_example_A solve_example_b = ![-1, 1, -2] := by
  refine ⟨?_, ?_, ?_⟩
  · intro i
    fin_cases i <;>
      simp [matrix.solve2, matrix.replace_column, matrix.det2,
        matrix.set_entry, Function.update, Fin.ext_iff]
  · intro i
    fin_cases i <;>
      simp [matrix.solve3, matrix.replace_column, matrix.det3,
        matrix.set_entry, List.finRange, List.foldl, Function.update,
        Fin.ext_iff]
  · funext i
    fin_cases i <;>
      simp [matrix.solve3, matrix.det3, matrix.set_entry, List.finRange,
        List.foldl, Function.update, Fin.ext_iff, solve_example_A,
        solve_example_b] <;> norm_num

/-- Witness for C1: the hypotheses hold and the conclusion is evaluated
at the 2x2 system `{4,-3, 6,5}, b = (11,7)` (determinant 38) and the
spec's 3x3 system (determinant 40). -/
theorem claim_c1_witness :
    matrix.solve2 solve2_example_A solve2_example_b 0
        = matrix.det2 (matrix.replace_column solve2_example_A 0 solve2_example_b)
          / matrix.det2 solve2_example_A ∧
    matrix.solve3 solve_example_A solve_example_b = ![-1, 1, -2] := by
  have h := claim_c1_solve_is_cramers_rule solve2_example_A solve2_example_b
    (by norm_num [matrix.det2, solve2_example_A])
    solve_example_A solve_example_b
    (by norm_num [matrix.det3, solve_example_A])
  exact ⟨h.1 0, h.2.2⟩

/-- C2: `determinant()` computes `a00*a11 - a10*a01` for 2x2 matrices
and the standard cofactor expansion for 3x3 matrices; in particular
`{4,6, 3,8}` has determinant 14 and `{6,1,1, 4,-2,5, 2,8,7}` has
determinant -306. -/
theorem claim_c2_determinant_formula {α : Type} [CommRing α]
    (M : matrix α 2 2) (N : matrix α 3 3) :
    matrix.det2 M = M 0 0 * M 1 1 - M 1 0 * M 0 1 ∧
    matrix.det3 N
      = N 0 0 * N 1 1 * N 2 2 + N 0 1 * N 1 2 * N 2 0 + N 0 2 * N 1 0 * N 2 1
        - N 0 2 * N 1 1 * N 2 0 - N 0 1 * N 1 0 * N 2 2
        - N 0 0 * N 1 2 * N 2 1 ∧
    matrix.det2 det2_example = 14 ∧ matrix.det3 det3_example = -306 := by
  refine ⟨by simp [matrix.det2], ?_, by decide, by decide⟩
  simp only [matrix.det3]
  ring

/-- C3 (evaluation at the failing input): on the 3x3 matrix
`{1..9}`, `column_matrix(1)` aborts on the out-of-range write
`col[i][1]` into its 3x1 result (modelled as `none`), while
`column_vector(1)` returns `(2, 5, 8)` and `column_matrix(0)` returns
the 3x1 matrix `(1; 4; 7)` as specified. -/
theorem claim_c3_column_matrix_aborts :
    matrix.column_matrix count_matrix 1 = none ∧
    (matrix.column_vector count_matrix 1).map (fun v => (v 0, v 1, v 2))
        = some (2, 5, 8) ∧
    (matrix.column_matrix count_matrix 0).map (fun A => (A 0 0, A 1 0, A 2 0))
        = some (1, 4, 7) := by
  refine ⟨by decide, by decide, by decide⟩

/-- C4: `almost_equal` is an elementwise absolute-margin comparison:
it returns `true` iff every element differs by at most `delta`; hence
for positive `delta` it is reflexive, tolerant of a single-element
perturbation of size at most `delta`, intolerant of one larger, and the
matrix version applies the same test over all entries. -/
theorem claim_c4_almost_equal_absolute {α : Type} [LinearOrderedField α]
    {n h w : ℕ} (u v : vector α n) (delta : α) (j : Fin n) (eps : α)
    (A B : matrix α h w) :
    (vector.almost_equal u v delta = true ↔ ∀ i, |u i - v i| ≤ delta) ∧
    (0 < delta → vector.almost_equal u u delta = true) ∧
    (|eps| ≤ delta →
      vector.almost_equal u (Function.update u j (u j + eps)) delta = true) ∧
    (delta < |eps| →
      vector.almost_equal u (Function.update u j (u j + eps)) delta = false) ∧
    (matrix.almost_equal A B delta = true ↔
      ∀ i j', |A i j' - B i j'| ≤ delta) := by
  have key : ∀ (m : ℕ) (x y : vector α m),
      vector.almost_equal x y delta = true ↔ ∀ i, |x i - y i| ≤ delta := by
    intro m x y
    simp only [vector.almost_equal, List.all_eq_true, List.mem_finRange,
      Bool.and_eq_true, decide_eq_true_eq, true_implies]
    constructor
    · intro hxy i
      obtain ⟨ha, hb⟩ := hxy i
      rw [abs_sub_le_iff]
      constructor <;> linarith
    · intro hxy i
      obtain ⟨ha, hb⟩ := abs_sub_le_iff.mp (hxy i)
      constructor <;> linarith
  refine ⟨key n u v, ?_, ?_, ?_, ?_⟩
  · intro hd
    rw [key]
    intro i
    simp only [sub_self, abs_zero]
    linarith
  · intro he
    rw [key]
    intro i
    rcases eq_or_ne i j with hij | hij
    · subst hij
      simp only [Function.update_same]
      have : u i - (u i + eps) = -eps := by ring
      rw [this, abs_neg]
      exact he
    · rw [Function.update_noteq hij]
      simp only [sub_self, abs_zero]
      have := abs_nonneg eps
      linarith
  · intro hd
    rw [Bool.eq_false_iff]
    intro hcontra
    have := (key _ _ _).mp hcontra j
    rw [Function.update_same] at this
    have heq : u j - (u j + eps) = -eps := by ring
    rw [heq, abs_neg] at this
    linarith
  · simp only [matrix.almost_equal, List.all_eq_true, List.mem_finRange,
      true_implies]
    constructor
    · intro hAB i j'
      exact (key _ _ _).mp (hAB i) j'
    · intro hAB i
      exact (key _ _ _).mpr (fun j' => hAB i j')

/-- C5: for 3-vectors, `cross` computes the standard 3D cross product
`(a1*b2 - a2*b1, a2*b0 - a0*b2, a0*b1 - a1*b0)` and is
anti-commutative: `a.cross(b) == -(b.cross(a))`. -/
theorem claim_c5_cross_formula_anticommutative {α : Type} [CommRing α]
    (a b : vector α 3) :
    vector.cross a b
      = some (fun i => if i = 0 then a 1 * b 2 - a 2 * b 1
          else if i = 1 then a 2 * b 0 - a 0 * b 2
          else a 0 * b 1 - a 1 * b 0) ∧
    vector.cross a b = (vector.cross b a).map vector.neg := by
  have key : ∀ (x y : vector α 3),
      vector.cross x y
        = some (fun i => if i = 0 then x 1 * y 2 - x 2 * y 1
            else if i = 1 then x 2 * y 0 - x 0 * y 2
            else x 0 * y 1 - x 1 * y 0) := by
    intro x y
    simp only [vector.cross, vector.get, vector.set, vector.is_index]
    norm_num
    funext i
    fin_cases i <;> simp +decide [Function.update_apply, Fin.ext_iff]
  refine ⟨key a b, ?_⟩
  rw [key a b, key b a, Option.map_some']
  congr 1
  funext i
  fin_cases i <;> simp [vector.neg] <;> ring

/-- C6 (evaluation at the failing input): on the 3x3 matrix `{1..9}`,
`row_matrix` rejects both out-of-range rows through its assertion, row
indexing itself asserts, and `row_vector(3)` aborts on the inner read
`(*this)[3][j]`; but `row_vector(-1)` returns the zero vector instead of
failing, because `row_vector` never checks its row argument and its copy
loop `for (i = 0; i <= row; i++)` does not run for a negative row. -/
theorem claim_c6_row_precondition :
    matrix.row_matrix count_matrix (-1) = none ∧
    matrix.row_matrix count_matrix 3 = none ∧
    matrix.row_vector count_matrix 3 = none ∧
    matrix.get count_matrix (-1) 0 = none ∧
    (matrix.row_vector count_matrix (-1)).map (fun v => (v 0, v 1, v 2))
        = some (0, 0, 0) := by
  refine ⟨by decide, by decide, by decide, by decide, by decide⟩

/-- C7 counterexample: `cross` on two 4-dimensional vectors is not
rejected - it returns a value (the cross product of the first three
components, with component 3 copied from the left operand), so `cross`
is callable on a vector whose dimension is not 3. -/
theorem claim_c7_counterexample :
    (vector.cross (α := ℤ) ![1, 2, 3, 4] ![5, 6, 7, 8]).map
        (fun v => (v 0, v 1, v 2, v 3)) = some (-4, 8, -4, 4) := by
  decide

/-- C7 amended: the source has no static dimension check on `cross`;
for dimension 2 every call fails the runtime index assertion (reading
`rhs[2]`), while for dimension 4 `cross` is callable and returns the 3D
cross-product formula on components 0..2, copying the remaining
component from the left operand. -/
theorem claim_c7_cross_no_dimension_check {α : Type} [CommRing α]
    (a2 b2 : vector α 2) (a4 b4 : vector α 4) :
    vector.cross a2 b2 = none ∧
    vector.cross a4 b4
      = some (fun i => if i = 0 then a4 1 * b4 2 - a4 2 * b4 1
          else if i = 1 then a4 2 * b4 0 - a4 0 * b4 2
          else if i = 2 then a4 0 * b4 1 - a4 1 * b4 0
          else a4 i) := by
  constructor
  · simp only [vector.cross, vector.get, vector.set, vector.is_index]
    norm_num
  · simp only [vector.cross, vector.get, vector.set, vector.is_index]
    norm_num
    funext i
    fin_cases i <;> simp +decide [Function.update_apply, Fin.ext_iff]

/-- C8: `shrink<RH, RW>()` agrees with `submatrix<RH, RW>(0, 0)`
wherever `shrink` is defined (result at most as large, strictly smaller
in at least one dimension). -/
theorem claim_c8_shrink_is_submatrix_at_origin {α : Type} [Zero α]
    {h w : ℕ} (rh rw' : ℕ) (M : matrix α h w)
    (hrh : rh ≤ h) (hrw : rw' ≤ w) (hs : rw' < w ∨ rh < h) :
    matrix.submatrix rh rw' M 0 0 = some (matrix.shrink rh rw' hrh hrw hs M) := by
  rw [matrix.submatrix_in_range rh rw' M 0 0 le_rfl (by omega) le_rfl (by omega)]
  congr 1
  unfold matrix.shrink
  rw [foldl_table]
  funext i j
  congr 1

/-- Witness for C8: shrinking the 3x3 matrix `{1..9}` to 2x2 equals
`submatrix<2,2>(0,0)`. -/
theorem claim_c8_witness :
    matrix.submatrix 2 2 count_matrix 0 0
      = some (matrix.shrink 2 2 (by omega) (by omega) (by omega) count_matrix) :=
  claim_c8_shrink_is_submatrix_at_origin 2 2 count_matrix (by omega) (by omega)
    (by omega)

/-- C10: the dot product of a vector with itself is exactly
`magnitude_squared()`: both accumulate the same sum of squares. -/
theorem claim_c10_dot_self_eq_magnitude_squared {α : Type} [CommRing α]
    {n : ℕ} (v : vector α n) :
    vector.dot v v = vector.magnitude_squared v := rfl

end gfx
